import Mathlib

/-!
Verification of the pyarchinit-webapp backend against its specification.

The definitions below are shallow embeddings of the Python code in
`backend/app/routers/media.py`, `backend/app/routers/export.py`,
`backend/app/routers/materiali.py`, `backend/app/routers/us.py` and
`backend/app/schemas.py`.  Machine floats (`time.time()` values, weights)
are modelled as exact numbers (`Int` timestamps, `Rat` weights); Python
dicts are modelled as association lists in insertion order, matching
CPython's ordered-dict semantics; Python's stable `sorted` is modelled by
`List.insertionSort`, which is also stable, so both produce the same list
for the same key.
-/

namespace PyArch

/-! ### SimpleTTLCache (media.py lines 25-72) -/

/-- One entry of the cache dict `self._cache`: key mapped to `(value, timestamp)`. -/
structure Entry (α : Type) where
  key : String
  val : α
  ts : Int
deriving DecidableEq

/-- `SimpleTTLCache` state: `maxsize`, `ttl` and the ordered dict `_cache`. -/
structure SimpleTTLCache (α : Type) where
  maxsize : Nat
  ttl : Int
  entries : List (Entry α)
deriving DecidableEq

/-- Comparison used by `sorted(self._cache.items(), key=lambda x: x[1][1])`. -/
def tsLe {α : Type} (a b : Entry α) : Prop := a.ts ≤ b.ts

instance {α : Type} : DecidableRel (tsLe (α := α)) :=
  fun a b => (inferInstance : Decidable (a.ts ≤ b.ts))

instance {α : Type} : IsTrans (Entry α) tsLe :=
  ⟨fun _ _ _ h1 h2 => le_trans h1 h2⟩

instance {α : Type} : IsTotal (Entry α) tsLe :=
  ⟨fun a b => le_total a.ts b.ts⟩

/-- Dict lookup `self._cache[key]` (first match; keys are unique in a dict). -/
def dictLookup {α : Type} (k : String) : List (Entry α) → Option (α × Int)
  | [] => none
  | e :: rest => if e.key = k then some (e.val, e.ts) else dictLookup k rest

/-- Dict update `self._cache[key] = (value, ts)`: overwrite in place, else append. -/
def dictSet {α : Type} (k : String) (v : α) (ts : Int) : List (Entry α) → List (Entry α)
  | [] => [⟨k, v, ts⟩]
  | e :: rest => if e.key = k then ⟨k, v, ts⟩ :: rest else e :: dictSet k v ts rest

/-- Dict deletion `del self._cache[key]` (keys are unique, so filtering is `del`). -/
def dictRemove {α : Type} (k : String) (l : List (Entry α)) : List (Entry α) :=
  l.filter (fun e => decide (e.key ≠ k))

/-- `SimpleTTLCache._cleanup` (media.py lines 37-49): sweep entries with
`now - ts > ttl`, then, if the dict still holds more than `maxsize` entries,
delete the oldest-timestamp entries until exactly `maxsize` remain. -/
def cleanupEntries {α : Type} (maxsize : Nat) (ttl now : Int) (l : List (Entry α)) :
    List (Entry α) :=
  let live := l.filter (fun e => decide (¬ (now - e.ts > ttl)))
  if live.length > maxsize then
    let sortedL := live.insertionSort tsLe
    let victims := (sortedL.take (live.length - maxsize)).map Entry.key
    live.filter (fun e => decide (e.key ∉ victims))
  else live

def SimpleTTLCache.cleanup {α : Type} (c : SimpleTTLCache α) (now : Int) :
    SimpleTTLCache α :=
  { c with entries := cleanupEntries c.maxsize c.ttl now c.entries }

/-- `SimpleTTLCache.get` (media.py lines 51-58): returns the value when the key is
present and not expired; deletes the entry and returns `none` when it is present
but expired.  The possibly mutated cache is returned alongside the result. -/
def SimpleTTLCache.get {α : Type} (c : SimpleTTLCache α) (now : Int) (k : String) :
    Option α × SimpleTTLCache α :=
  match dictLookup k c.entries with
  | some (v, ts) =>
    if now - ts > c.ttl then (none, { c with entries := dictRemove k c.entries })
    else (some v, c)
  | none => (none, c)

/-- `SimpleTTLCache.set` (media.py lines 60-62): `_cleanup()` then insert with the
current timestamp. -/
def SimpleTTLCache.set {α : Type} (c : SimpleTTLCache α) (now : Int) (k : String)
    (v : α) : SimpleTTLCache α :=
  let c' := c.cleanup now
  { c' with entries := dictSet k v now c'.entries }

/-- `SimpleTTLCache.__len__` (media.py lines 67-69): `_cleanup()` then report the
size; the mutated cache is returned alongside the count. -/
def SimpleTTLCache.lenOp {α : Type} (c : SimpleTTLCache α) (now : Int) :
    Nat × SimpleTTLCache α :=
  let c' := c.cleanup now
  (c'.entries.length, c')

/-- A sequence of `set` calls: `(time, key, value)` triples in call order. -/
def setMany {α : Type} (c : SimpleTTLCache α) : List (Int × String × α) → SimpleTTLCache α
  | [] => c
  | (t, k, v) :: rest => setMany (c.set t k v) rest

/-- The cache entry created by one `set` call. -/
def insEntry {α : Type} (i : Int × String × α) : Entry α := ⟨i.2.1, i.2.2, i.1⟩

/-- Abstract effect of one `set` on the entry list when nothing is expired, the
list is already in timestamp order and the key is fresh: drop the oldest
entries beyond `maxsize`, then append the new entry. -/
def fifoStep {α : Type} (m : Nat) (l : List (Entry α)) (e : Entry α) : List (Entry α) :=
  l.drop (l.length - m) ++ [e]

/-! ### Python string helpers -/

/-- Truthiness of an optional string (`if s:`): `None` and `""` are falsy. -/
def pyTruthyStr : Option String → Bool
  | none => false
  | some s => !(s == "")

/-- `a or b` on optional strings. -/
def pyOrOptStr (a b : Option String) : Option String :=
  if pyTruthyStr a then a else b

/-- `o or d` where `d` is a string default. -/
def pyOrStr (o : Option String) (d : String) : String :=
  match o with
  | none => d
  | some s => if s = "" then d else s

/-- `s.rstrip('/')`. -/
def rstripSlash (s : String) : String :=
  ⟨(s.data.reverse.dropWhile (fun c => c = '/')).reverse⟩

/-- `s.lstrip('.')`. -/
def lstripDot (s : String) : String :=
  ⟨s.data.dropWhile (fun c => c = '.')⟩

/-- `s.lower()` (the inputs of this application are ASCII, where Python's
`lower` and the per-character map agree). -/
def pyLower (s : String) : String :=
  ⟨s.data.map Char.toLower⟩

/-- `s.strip()`: whitespace removed from both ends. -/
def pyStrip (s : String) : String :=
  ⟨((s.data.dropWhile Char.isWhitespace).reverse.dropWhile Char.isWhitespace).reverse⟩

/-- `s.split(sep)` for a one-character separator, on the character list. -/
def splitChar (sep : Char) : List Char → List (List Char)
  | [] => [[]]
  | c :: rest =>
    let r := splitChar sep rest
    if c = sep then [] :: r
    else
      match r with
      | [] => [[c]]
      | h :: t => (c :: h) :: t

/-- `s.split(sep)` returning strings. -/
def pySplit (sep : Char) (s : String) : List String :=
  (splitChar sep s.data).map (fun l => ⟨l⟩)

/-! ### get_media_category (schemas.py lines 147-180) -/

/-- The tag table applied to the lowered and stripped `mediatype`
(schemas.py lines 154-160). -/
def recognizeTagOf (m : String) : Option String :=
  if m ∈ ["image", "foto", "photo", "img"] then some "image"
  else if m ∈ ["video", "movie", "film"] then some "video"
  else if m ∈ ["3d", "model", "3dmodel", "mesh"] then some "3d"
  else none

/-- `mt = mediatype.lower().strip()` followed by the tag table
(schemas.py lines 153-160). -/
def recognizeTag (mt : String) : Option String :=
  recognizeTagOf (pyStrip (pyLower mt))

/-- Extension extraction (schemas.py lines 162-167): prefer `filetype`, else the
part of `filename` after its last dot, else `""`. -/
def extOf (filename filetype : Option String) : String :=
  if pyTruthyStr filetype then lstripDot (pyLower (filetype.getD ""))
  else if pyTruthyStr filename then
    let f := filename.getD ""
    if f.data.any (fun c => c = '.') then pyLower ((pySplit '.' f).getLastD "") else ""
  else ""

/-- Extension table (schemas.py lines 169-180); unrecognised extensions default
to `"image"`. -/
def extCategory (ext : String) : String :=
  if ext ∈ ["jpg", "jpeg", "png", "gif", "webp", "bmp", "tiff", "tif"] then "image"
  else if ext ∈ ["mp4", "webm", "avi", "mov", "mkv", "wmv", "flv", "m4v"] then "video"
  else if ext ∈ ["glb", "gltf", "obj", "fbx", "stl", "ply", "3ds", "dae"] then "3d"
  else "image"

/-- `get_media_category(filename, filetype, mediatype)` (schemas.py lines 147-180). -/
def get_media_category (filename filetype mediatype : Option String) : String :=
  match mediatype with
  | some mts =>
    if mts = "" then extCategory (extOf filename filetype)
    else
      match recognizeTag mts with
      | some c => c
      | none => extCategory (extOf filename filetype)
  | none => extCategory (extOf filename filetype)

/-! ### Media URL resolution (media.py lines 97-145) -/

/-- The configuration values read by the media router (config.py; the
`BACKEND_PUBLIC_URL` field is supplied through the environment via
`extra = "allow"`). -/
structure Settings where
  STORAGE_SERVER_URL : String
  BACKEND_PUBLIC_URL : String
  CLOUDINARY_CLOUD_NAME : String
  CLOUDINARY_ENABLED : Bool
deriving DecidableEq

/-- `filepath[1:]` applied when `filepath.startswith('/')` (media.py
lines 105-106). -/
def stripLeadSlash (p : String) : String :=
  match p.data with
  | '/' :: rest => ⟨rest⟩
  | _ => p

/-- `get_public_proxy_url` (media.py lines 97-108) on a truthy filepath. -/
def publicProxyUrl (s : Settings) (filepath : String) (isThumbnail : Bool) : String :=
  let baseUrl := rstripSlash s.BACKEND_PUBLIC_URL
  let folder := if isThumbnail then "thumbnail" else "original"
  baseUrl ++ "/api/media/public/" ++ folder ++ "/" ++ stripLeadSlash filepath

/-- The UTF-8 bytes of one code point (what `str.encode()` produces per
character before percent-encoding). -/
def utf8Bytes (n : Nat) : List Nat :=
  if n < 128 then [n]
  else if n < 2048 then [192 + n / 64, 128 + n % 64]
  else if n < 65536 then [224 + n / 4096, 128 + (n / 64) % 64, 128 + n % 64]
  else [240 + n / 262144, 128 + (n / 4096) % 64, 128 + (n / 64) % 64, 128 + n % 64]

/-- One byte of `urllib.parse.quote(..., safe='')`: unreserved bytes kept,
everything else percent-encoded with uppercase hex. -/
def quoteByte (b : Nat) : String :=
  let c := Char.ofNat b
  if c.isAlphanum || c = '-' || c = '_' || c = '.' || c = '~' then String.singleton c
  else
    let hex := fun (n : Nat) => String.singleton (Nat.digitChar n).toUpper
    "%" ++ hex (b / 16) ++ hex (b % 16)

/-- `urllib.parse.quote(s, safe='')` over the UTF-8 bytes of `s`. -/
def urllibQuote (s : String) : String :=
  String.join ((s.data.flatMap (fun c => utf8Bytes c.toNat)).map quoteByte)

/-- `get_cloudinary_url` (media.py lines 111-132) on a truthy filepath. -/
def cloudinaryUrl (s : Settings) (filepath : String) (isThumbnail : Bool) : String :=
  let transformations :=
    if isThumbnail then "f_auto,q_auto,w_150,h_150,c_fill"
    else "f_auto,q_auto:good,w_1200,c_limit"
  let proxyUrl := publicProxyUrl s filepath isThumbnail
  "https://res.cloudinary.com/" ++ s.CLOUDINARY_CLOUD_NAME ++ "/image/fetch/"
    ++ transformations ++ "/" ++ urllibQuote proxyUrl

/-- `get_media_url` (media.py lines 135-145); `none` models Python's `None`
return on a falsy filepath. -/
def getMediaUrl (s : Settings) (filepath : Option String) (isThumbnail : Bool)
    (mediaCat : String) : Option String :=
  if !pyTruthyStr filepath then none
  else
    let p := filepath.getD ""
    if s.CLOUDINARY_ENABLED && mediaCat == "image" then some (cloudinaryUrl s p isThumbnail)
    else some (publicProxyUrl s p isThumbnail)

/-! ### Thumbnail / full-image endpoints (media.py lines 290-362) -/

/-- A row of the `media_thumb_table` as consumed by the media router
(field types from `schemas.MediaResponse`). -/
structure MediaRow where
  id_media : Int
  media_filename : Option String
  mediatype : Option String
  filetype : Option String
  filepath : Option String
  path_resize : Option String
deriving DecidableEq

/-- What the endpoint does once the row is found: HTTP 302 redirect to the CDN,
or proxy the given URL through the backend cache. -/
inductive MediaAction where
  | redirect (url : String)
  | proxyFetch (url : String)
deriving DecidableEq

/-- `get_thumbnail` (media.py lines 290-324) for a found row: note the call
`get_media_url(thumb.filepath, is_thumbnail=True)` leaves `media_cat` at its
default `"image"`. -/
def get_thumbnail (s : Settings) (row : MediaRow) : Except Nat MediaAction :=
  match getMediaUrl s row.filepath true "image" with
  | none => .error 404
  | some url => if s.CLOUDINARY_ENABLED then .ok (.redirect url) else .ok (.proxyFetch url)

/-- `get_full_image` (media.py lines 327-362) for a found row: the filepath is
`thumb.path_resize or thumb.filepath` and `media_cat` is left at `"image"`. -/
def get_full_image (s : Settings) (row : MediaRow) : Except Nat MediaAction :=
  let fp := pyOrOptStr row.path_resize row.filepath
  match getMediaUrl s fp false "image" with
  | none => .error 404
  | some url => if s.CLOUDINARY_ENABLED then .ok (.redirect url) else .ok (.proxyFetch url)

/-! ### Rows of the queried tables (field types from schemas.py) -/

/-- A stratigraphic-unit row (`us_table`) restricted to the columns used by the
list and export endpoints; `us` is text in the database. -/
structure USRow where
  id_us : Int
  sito : Option String
  area : Option String
  us : Option String
  d_stratigrafica : Option String
  d_interpretativa : Option String
  descrizione : Option String
  interpretazione : Option String
  periodo_iniziale : Option String
  fase_iniziale : Option String
  datazione : Option String
deriving DecidableEq

/-- A material-inventory row (`inventario_materiali_table`) restricted to the
columns used by the list, summary and export endpoints.  `peso` is a float in
the database, modelled as an exact rational. -/
structure MatRow where
  id_invmat : Int
  sito : Option String
  numero_inventario : Option Int
  tipo_reperto : Option String
  definizione : Option String
  descrizione : Option String
  area : Option String
  us : Option String
  nr_cassa : Option Int
  luogo_conservazione : Option String
  stato_conservazione : Option String
  datazione_reperto : Option String
  totale_frammenti : Option Int
  peso : Option Rat
deriving DecidableEq

/-! ### Query filters (SQLAlchemy `.filter(...)` calls guarded by truthiness) -/

/-- `if param: query.filter(col == param)`: `None` and `""` mean no filter;
a SQL `NULL` column never matches an equality filter. -/
def pyFilterStr (f : Option String) (col : Option String) : Bool :=
  match f with
  | none => true
  | some s => if s = "" then true else decide (col = some s)

/-- `if param is not None: query.filter(col == param)` (used for `us`). -/
def pyFilterStrNotNone (f : Option String) (col : Option String) : Bool :=
  match f with
  | none => true
  | some s => decide (col = some s)

/-- `if param: query.filter(col == param)` for integers: `0` means no filter. -/
def pyFilterInt (f : Option Int) (col : Option Int) : Bool :=
  match f with
  | none => true
  | some n => if n = 0 then true else decide (col = some n)

/-- Contiguous-sublist test used to model SQL `ILIKE '%pat%'`. -/
def hasSub (needle : List Char) : List Char → Bool
  | [] => needle.isEmpty
  | c :: rest => needle.isPrefixOf (c :: rest) || hasSub needle rest

/-- `col.ilike(f"%{pat}%")`: case-insensitive substring; `NULL` never matches. -/
def ilike (col : Option String) (pat : String) : Bool :=
  match col with
  | none => false
  | some s => hasSub (pyLower pat).data (pyLower s).data

/-! ### ORDER BY keys.  SQL compares text by code point (C collation) and
PostgreSQL ascending order puts NULLs last; Python's stable `sorted` and
`List.insertionSort` agree on the same key. -/

/-- Code-point lexicographic `≤` on character lists. -/
def strLeB : List Char → List Char → Bool
  | [], _ => true
  | _ :: _, [] => false
  | a :: as, b :: bs =>
    if a.toNat < b.toNat then true
    else if b.toNat < a.toNat then false
    else strLeB as bs

/-- `≤` on a nullable text column, NULLs last. -/
def optStrLeB : Option String → Option String → Bool
  | none, none => true
  | none, some _ => false
  | some _, none => true
  | some x, some y => strLeB x.data y.data

/-- `≤` on a nullable integer column, NULLs last. -/
def optIntLeB : Option Int → Option Int → Bool
  | none, none => true
  | none, some _ => false
  | some _, none => true
  | some x, some y => decide (x ≤ y)

/-- Lexicographic combination of two comparisons. -/
def lex2 {γ δ : Type} [DecidableEq γ] (le1 : γ → γ → Bool) (le2 : δ → δ → Bool)
    (a b : γ × δ) : Bool :=
  if a.1 = b.1 then le2 a.2 b.2 else le1 a.1 b.1

/-- `order_by(US.sito, US.area, US.us)` (us.py lines 78 and 110,
export.py lines 225 and 257). -/
def usLe (a b : USRow) : Prop :=
  lex2 optStrLeB (lex2 optStrLeB optStrLeB)
    (a.sito, a.area, a.us) (b.sito, b.area, b.us) = true

instance : DecidableRel usLe := fun _ _ =>
  (inferInstance : Decidable (_ = true))

/-- `order_by(InventarioMateriali.sito, InventarioMateriali.numero_inventario)`
(materiali.py lines 51-54). -/
def matLe (a b : MatRow) : Prop :=
  lex2 optStrLeB optIntLeB
    (a.sito, a.numero_inventario) (b.sito, b.numero_inventario) = true

instance : DecidableRel matLe := fun _ _ =>
  (inferInstance : Decidable (_ = true))

/-- `order_by(InventarioMateriali.numero_inventario)` (export.py lines
355 and 383). -/
def invLe (a b : MatRow) : Prop :=
  optIntLeB a.numero_inventario b.numero_inventario = true

instance : DecidableRel invLe := fun _ _ =>
  (inferInstance : Decidable (_ = true))

/-! ### List endpoints (us.py lines 55-119, materiali.py lines 17-56) -/

/-- Filters of `get_us_list` (sito, area, search over three text columns). -/
def usListFilter (sito area search : Option String) (r : USRow) : Bool :=
  pyFilterStr sito r.sito && pyFilterStr area r.area &&
    (match search with
     | none => true
     | some s =>
       if s = "" then true
       else ilike r.descrizione s || ilike r.interpretazione s || ilike r.d_stratigrafica s)

/-- Filters of `get_us_paginated` (sito, area, periodo, search over two columns). -/
def usPagFilter (sito area periodo search : Option String) (r : USRow) : Bool :=
  pyFilterStr sito r.sito && pyFilterStr area r.area &&
    pyFilterStr periodo r.periodo_iniziale &&
    (match search with
     | none => true
     | some s =>
       if s = "" then true else ilike r.descrizione s || ilike r.interpretazione s)

/-- `get_us_list` (us.py lines 55-79): filter, order, offset, limit. -/
def get_us_list (db : List USRow) (skip limit : Nat) (sito area search : Option String) :
    List USRow :=
  (((db.filter (usListFilter sito area search)).insertionSort usLe).drop skip).take limit

/-- The `items` of `get_us_paginated` (us.py lines 82-119). -/
def get_us_paginated_items (db : List USRow) (page pageSize : Nat)
    (sito area periodo search : Option String) : List USRow :=
  (((db.filter (usPagFilter sito area periodo search)).insertionSort usLe).drop
    ((page - 1) * pageSize)).take pageSize

/-- Filters of `get_materiali` (materiali.py lines 31-49). -/
def matListFilter (sito area us : Option String) (nrCassa : Option Int)
    (luogo tipo search : Option String) (m : MatRow) : Bool :=
  pyFilterStr sito m.sito && pyFilterStr area m.area &&
    pyFilterStrNotNone us m.us && pyFilterInt nrCassa m.nr_cassa &&
    pyFilterStr luogo m.luogo_conservazione && pyFilterStr tipo m.tipo_reperto &&
    (match search with
     | none => true
     | some s =>
       if s = "" then true else ilike m.descrizione s || ilike m.definizione s)

/-- `get_materiali` (materiali.py lines 17-56): filter, order, offset, limit. -/
def get_materiali (db : List MatRow) (skip limit : Nat) (sito area us : Option String)
    (nrCassa : Option Int) (luogo tipo search : Option String) : List MatRow :=
  (((db.filter (matListFilter sito area us nrCassa luogo tipo search)).insertionSort
    matLe).drop skip).take limit

/-! ### Export documents (export.py) -/

/-- A Python attribute value written into a document cell. -/
inductive PyVal where
  | none
  | str (s : String)
  | int (n : Int)
  | rat (q : Rat)
deriving DecidableEq

def ostr : Option String → PyVal
  | Option.none => .none
  | Option.some s => .str s

def oint : Option Int → PyVal
  | Option.none => .none
  | Option.some n => .int n

def orat : Option Rat → PyVal
  | Option.none => .none
  | Option.some q => .rat q

/-- `(field, label)` pairs of `US_COLUMNS` (export.py lines 162-173). -/
def usColumns : List (String × String) :=
  [("sito", "Site"), ("area", "Area"), ("us", "SU"),
   ("d_stratigrafica", "Strat. Definition"), ("d_interpretativa", "Interpretation"),
   ("periodo_iniziale", "Period"), ("fase_iniziale", "Phase"),
   ("datazione", "Dating"), ("descrizione", "Description"),
   ("interpretazione", "Interpretation Notes")]

/-- `(field, label)` pairs of `MATERIALI_COLUMNS` (export.py lines 176-189). -/
def matColumns : List (String × String) :=
  [("sito", "Site"), ("numero_inventario", "Inv. No."), ("tipo_reperto", "Type"),
   ("definizione", "Definition"), ("area", "Area"), ("us", "SU"),
   ("nr_cassa", "Box No."), ("luogo_conservazione", "Storage Location"),
   ("stato_conservazione", "Condition"), ("datazione_reperto", "Dating"),
   ("totale_frammenti", "Tot. Fragments"), ("peso", "Weight (g)")]

/-- `getattr(row, field, None)` for a `USRow`. -/
def getUSField (r : USRow) : String → PyVal
  | "sito" => ostr r.sito
  | "area" => ostr r.area
  | "us" => ostr r.us
  | "d_stratigrafica" => ostr r.d_stratigrafica
  | "d_interpretativa" => ostr r.d_interpretativa
  | "periodo_iniziale" => ostr r.periodo_iniziale
  | "fase_iniziale" => ostr r.fase_iniziale
  | "datazione" => ostr r.datazione
  | "descrizione" => ostr r.descrizione
  | "interpretazione" => ostr r.interpretazione
  | _ => .none

/-- `getattr(row, field, None)` for a `MatRow`. -/
def getMatField (m : MatRow) : String → PyVal
  | "sito" => ostr m.sito
  | "numero_inventario" => oint m.numero_inventario
  | "tipo_reperto" => ostr m.tipo_reperto
  | "definizione" => ostr m.definizione
  | "area" => ostr m.area
  | "us" => ostr m.us
  | "nr_cassa" => oint m.nr_cassa
  | "luogo_conservazione" => ostr m.luogo_conservazione
  | "stato_conservazione" => ostr m.stato_conservazione
  | "datazione_reperto" => ostr m.datazione_reperto
  | "totale_frammenti" => oint m.totale_frammenti
  | "peso" => orat m.peso
  | _ => .none

/-- The spreadsheet produced by `create_excel_workbook` (export.py lines 29-78):
a header row of labels followed by one row of cell values per data row
(styling and column widths are presentation only and not modelled). -/
structure ExcelDoc where
  title : String
  header : List String
  rows : List (List PyVal)
deriving DecidableEq

/-- The document produced by `create_pdf_document` (export.py lines 81-158):
title, the header row of labels, and one row per data row (string rendering
and truncation of cells is presentation only and not modelled). -/
structure PdfDoc where
  title : String
  header : List String
  dataRows : List (List PyVal)
deriving DecidableEq

/-- Filters shared by `export_us_excel` / `export_us_pdf` (export.py lines
218-223 and 250-255). -/
def usExportFilter (sito area periodo : Option String) (r : USRow) : Bool :=
  pyFilterStr sito r.sito && pyFilterStr area r.area &&
    pyFilterStr periodo r.periodo_iniziale

/-- The query result of the US exports: filtered and ordered rows. -/
def usExportData (db : List USRow) (sito area periodo : Option String) : List USRow :=
  (db.filter (usExportFilter sito area periodo)).insertionSort usLe

/-- The workbook `export_us_excel` builds when data is nonempty (the
date component of the generated title is external and not modelled). -/
def usExcelDoc (db : List USRow) (sito area periodo : Option String) : ExcelDoc :=
  { title := "SU_" ++ pyOrStr sito "all"
    header := usColumns.map Prod.snd
    rows := (usExportData db sito area periodo).map
      (fun r => usColumns.map (fun c => getUSField r c.1)) }

/-- `export_us_excel` (export.py lines 208-237): 404 on an empty result. -/
def export_us_excel (db : List USRow) (sito area periodo : Option String) :
    Except Nat ExcelDoc :=
  if (usExportData db sito area periodo).isEmpty then .error 404
  else .ok (usExcelDoc db sito area periodo)

/-- The document `export_us_pdf` builds when data is nonempty (first eight
columns only). -/
def usPdfDoc (db : List USRow) (sito area periodo : Option String) : PdfDoc :=
  { title := "Stratigraphic Units - " ++ pyOrStr sito "All Sites"
    header := (usColumns.take 8).map Prod.snd
    dataRows := (usExportData db sito area periodo).map
      (fun r => (usColumns.take 8).map (fun c => getUSField r c.1)) }

/-- `export_us_pdf` (export.py lines 240-269): 404 on an empty result. -/
def export_us_pdf (db : List USRow) (sito area periodo : Option String) :
    Except Nat PdfDoc :=
  if (usExportData db sito area periodo).isEmpty then .error 404
  else .ok (usPdfDoc db sito area periodo)

/-! ### Search exports by id list (export.py lines 342-395) -/

/-- Python `str.isdigit()` restricted to ASCII digits. -/
def pyIsDigit (s : String) : Bool :=
  !(s.data.isEmpty) && s.data.all Char.isDigit

/-- Decimal value of a digit string (`int(t)`). -/
def digitsToNat (s : String) : Nat :=
  s.data.foldl (fun n c => n * 10 + (c.toNat - 48)) 0

/-- `[int(id.strip()) for id in ids.split(',') if id.strip().isdigit()]`
(export.py lines 348 and 376): tokens that are not digit strings are dropped. -/
def parseIds (ids : String) : List Int :=
  (pySplit ',' ids).filterMap (fun tok =>
    let t := pyStrip tok
    if pyIsDigit t then some ((digitsToNat t : Nat) : Int) else none)

/-- The rows selected by the search exports: `id_invmat` in the parsed list,
ordered by inventory number. -/
def searchRows (db : List MatRow) (ids : String) : List MatRow :=
  (db.filter (fun m => decide (m.id_invmat ∈ parseIds ids))).insertionSort invLe

/-- The workbook `export_materials_search_excel` builds on success. -/
def matSearchExcelDoc (db : List MatRow) (ids : String) : ExcelDoc :=
  { title := "Materials_Search"
    header := matColumns.map Prod.snd
    rows := (searchRows db ids).map (fun m => matColumns.map (fun c => getMatField m c.1)) }

/-- `export_materials_search_excel` (export.py lines 342-367): 400 when no
token of the id list parses, 404 when no row matches. -/
def export_materials_search_excel (db : List MatRow) (ids : String) :
    Except Nat ExcelDoc :=
  if (parseIds ids).isEmpty then .error 400
  else if (searchRows db ids).isEmpty then .error 404
  else .ok (matSearchExcelDoc db ids)

/-- The document `export_materials_search_pdf` builds on success (first ten
columns only). -/
def matSearchPdfDoc (db : List MatRow) (ids : String) : PdfDoc :=
  { title := "Materials Search Results"
    header := (matColumns.take 10).map Prod.snd
    dataRows := (searchRows db ids).map
      (fun m => (matColumns.take 10).map (fun c => getMatField m c.1)) }

/-- `export_materials_search_pdf` (export.py lines 370-395). -/
def export_materials_search_pdf (db : List MatRow) (ids : String) :
    Except Nat PdfDoc :=
  if (parseIds ids).isEmpty then .error 400
  else if (searchRows db ids).isEmpty then .error 404
  else .ok (matSearchPdfDoc db ids)

/-! ### Materials summary (materiali.py lines 110-178) and the inventory
summary export aggregates (export.py lines 462-515, 572-584) -/

/-- First-occurrence deduplication: the key order in which a `defaultdict`
grouping pass visits its keys. -/
def firstOccDedup {κ : Type} [DecidableEq κ] (l : List κ) : List κ :=
  l.foldl (fun acc a => if a ∈ acc then acc else acc ++ [a]) []

/-- `if sito: query.filter(InventarioMateriali.sito == sito)`. -/
def siteFilterM (sito : Option String) (m : MatRow) : Bool :=
  pyFilterStr sito m.sito

/-- `mat.luogo_conservazione or "Non specificato"` (materiali.py line 132). -/
def storageOf (m : MatRow) : String :=
  pyOrStr m.luogo_conservazione "Non specificato"

/-- `mat.nr_cassa or "Non specificata"` (materiali.py line 133): `None` and `0`
both fall to the sentinel, modelled as `none`. -/
def boxKeyOf (m : MatRow) : Option Int :=
  match m.nr_cassa with
  | none => none
  | some n => if n = 0 then none else some n

/-- Response schema `BoxSummary` (schemas.py lines 184-188); `nr_cassa` is `0`
for the unspecified-box group (materiali.py line 146). -/
structure BoxSummary where
  nr_cassa : Int
  luogo_conservazione : String
  total_items : Nat
  types : List String
deriving DecidableEq

/-- Response schema `StorageSummary` (schemas.py lines 191-195). -/
structure StorageSummary where
  luogo_conservazione : String
  total_boxes : Nat
  total_items : Nat
  boxes : List BoxSummary
deriving DecidableEq

/-- Response schema `MaterialsSummary` restricted to the fields the summary
endpoint fills in. -/
structure MaterialsSummary where
  total_materials : Nat
  total_boxes : Nat
  storage_locations : List StorageSummary
  by_type : List (String × Nat)
  by_site : List (String × Nat)
deriving DecidableEq

/-- `sorted(boxes, key=lambda x: x.nr_cassa if isinstance(x.nr_cassa, int) else 0)`
(materiali.py line 157); in this model `nr_cassa` is always an `Int`. -/
def boxLe (a b : BoxSummary) : Prop := a.nr_cassa ≤ b.nr_cassa

instance : DecidableRel boxLe := fun a b => (inferInstance : Decidable (a.nr_cassa ≤ b.nr_cassa))

instance : IsTrans BoxSummary boxLe := ⟨fun _ _ _ h1 h2 => le_trans h1 h2⟩

instance : IsTotal BoxSummary boxLe := ⟨fun a b => le_total a.nr_cassa b.nr_cassa⟩

/-- `sorted(storage_locations, key=lambda x: x.luogo_conservazione)`
(materiali.py line 175); Python compares strings by code point. -/
def storLe (a b : StorageSummary) : Prop :=
  strLeB a.luogo_conservazione.data b.luogo_conservazione.data = true

instance : DecidableRel storLe := fun _ _ =>
  (inferInstance : Decidable (_ = true))

/-- The per-box summaries of one storage location (materiali.py lines 144-151);
`types` is a Python `set`, modelled here in first-insertion order. -/
def buildBoxes (rows : List MatRow) (sname : String) : List BoxSummary :=
  (firstOccDedup (rows.map boxKeyOf)).map (fun bk =>
    let brows := rows.filter (fun m => decide (boxKeyOf m = bk))
    { nr_cassa := bk.getD 0
      luogo_conservazione := sname
      total_items := brows.length
      types := firstOccDedup ((brows.filter (fun m => pyTruthyStr m.tipo_reperto)).map
        (fun m => m.tipo_reperto.getD "")) })

/-- One `StorageSummary` (materiali.py lines 142-158). -/
def buildStorage (mats : List MatRow) (sname : String) : StorageSummary :=
  let rows := mats.filter (fun m => decide (storageOf m = sname))
  let boxes := buildBoxes rows sname
  { luogo_conservazione := sname
    total_boxes := boxes.length
    total_items := (boxes.map BoxSummary.total_items).sum
    boxes := boxes.insertionSort boxLe }

/-- Grouped counts (`by_type`, `by_site`, materiali.py lines 160-170). -/
def countBy (mats : List MatRow) (f : MatRow → String) : List (String × Nat) :=
  (firstOccDedup (mats.map f)).map (fun k =>
    (k, (mats.filter (fun m => decide (f m = k))).length))

/-- `get_materials_summary` (materiali.py lines 110-178). -/
def get_materials_summary (db : List MatRow) (sito : Option String) : MaterialsSummary :=
  let mats := db.filter (siteFilterM sito)
  let storages := firstOccDedup (mats.map storageOf)
  let locs := storages.map (buildStorage mats)
  { total_materials := mats.length
    total_boxes := (locs.map StorageSummary.total_boxes).sum
    storage_locations := locs.insertionSort storLe
    by_type := countBy mats (fun m => pyOrStr m.tipo_reperto "Non specificato")
    by_site := countBy mats (fun m => pyOrStr m.sito "Non specificato") }

/-- `m.peso or 0` (export.py lines 514 and 574): a missing weight counts as 0. -/
def pesoOr0 (m : MatRow) : Rat :=
  match m.peso with
  | none => 0
  | some q => q

/-- `mat.luogo_conservazione or "Not specified"` (export.py line 480). -/
def exportStorageOf (m : MatRow) : String :=
  pyOrStr m.luogo_conservazione "Not specified"

/-- `mat.nr_cassa or 0` (export.py line 481). -/
def exportBoxOf (m : MatRow) : Int :=
  match m.nr_cassa with
  | none => 0
  | some n => n

/-- `total_weight = sum(m.peso or 0 for m in all_materials)` (export.py line 514):
the overall aggregate weight of the inventory summary export. -/
def exportTotalWeight (db : List MatRow) (sito : Option String) : Rat :=
  ((db.filter (siteFilterM sito)).map pesoOr0).sum

/-- The sum of the per-box weights the inventory summary export writes (one
`sum(m.peso or 0 for m in materials)` per `(storage, box)` group, export.py
line 574), accumulated over all groups. -/
def exportBoxWeightSum (db : List MatRow) (sito : Option String) : Rat :=
  let mats := db.filter (siteFilterM sito)
  ((firstOccDedup (mats.map exportStorageOf)).map (fun sname =>
    let rows := mats.filter (fun m => decide (exportStorageOf m = sname))
    ((firstOccDedup (rows.map exportBoxOf)).map (fun b =>
      ((rows.filter (fun m => decide (exportBoxOf m = b))).map pesoOr0).sum)).sum)).sum

/-! ### Concrete instances used by witnesses and counterexamples -/

/-- An empty cache with `maxsize = 1`. -/
def cacheEx1 : SimpleTTLCache Nat := ⟨1, 3600, []⟩

/-- A cache holding one fresh entry. -/
def cacheEx2 : SimpleTTLCache Nat := ⟨5, 10, [⟨"a", 1, 0⟩]⟩

/-- A cache over capacity: two live entries with `maxsize = 1`. -/
def cacheEx3 : SimpleTTLCache Nat := ⟨1, 100, [⟨"a", 1, 0⟩, ⟨"b", 2, 1⟩]⟩

/-- Two distinct fresh insertions. -/
def insEx : List (Int × String × Nat) := [(0, "a", 10), (1, "b", 20)]

/-- A configuration with the CDN enabled. -/
def settingsOn : Settings :=
  ⟨"https://storage.example", "https://backend.example/", "demo", true⟩

/-- The same configuration with the CDN disabled. -/
def settingsOff : Settings :=
  ⟨"https://storage.example", "https://backend.example/", "demo", false⟩

/-- A media row whose filename classifies as `video`. -/
def mediaRowEx : MediaRow :=
  ⟨7, some "clip.mp4", none, some "mp4", some "us/clip.mp4", none⟩

/-- A stratigraphic-unit row. -/
def usRowEx : USRow :=
  ⟨1, some "Sito A", some "1", some "100", some "strato", none, some "terra scura",
   none, some "I", none, none⟩

/-- A material row with id 12. -/
def matRowEx : MatRow :=
  ⟨12, some "Sito A", some 3, some "ceramica", none, none, some "1", some "100",
   some 1, some "Dep A", none, none, some 4, some 10⟩

/-- Three material rows in one storage location, two boxes, one missing weight. -/
def matDbEx : List MatRow :=
  [⟨12, some "Sito A", some 3, some "ceramica", none, none, some "1", some "100",
    some 1, some "Dep A", none, none, some 4, some 10⟩,
   ⟨13, some "Sito A", some 4, some "metallo", none, none, some "1", some "100",
    some 1, some "Dep A", none, none, none, none⟩,
   ⟨14, some "Sito A", some 5, some "ceramica", none, none, some "1", some "101",
    some 2, some "Dep A", none, none, some 2, some 3⟩]

/-! ## Lemmas about the cache dict -/

@[simp]
theorem cleanup_ttl {α : Type} (c : SimpleTTLCache α) (now : Int) :
    (c.cleanup now).ttl = c.ttl := rfl

@[simp]
theorem cleanup_maxsize {α : Type} (c : SimpleTTLCache α) (now : Int) :
    (c.cleanup now).maxsize = c.maxsize := rfl

@[simp]
theorem set_ttl {α : Type} (c : SimpleTTLCache α) (now : Int) (k : String) (v : α) :
    (c.set now k v).ttl = c.ttl := rfl

@[simp]
theorem set_maxsize {α : Type} (c : SimpleTTLCache α) (now : Int) (k : String) (v : α) :
    (c.set now k v).maxsize = c.maxsize := rfl

theorem set_entries {α : Type} (c : SimpleTTLCache α) (now : Int) (k : String) (v : α) :
    (c.set now k v).entries = dictSet k v now (c.cleanup now).entries := rfl

theorem dictLookup_dictSet_self {α : Type} (k : String) (v : α) (t : Int)
    (l : List (Entry α)) : dictLookup k (dictSet k v t l) = some (v, t) := by
  induction l with
  | nil => simp [dictSet, dictLookup]
  | cons e rest ih =>
    by_cases h : e.key = k
    · simp [dictSet, dictLookup, h]
    · simp [dictSet, dictLookup, h, ih]

theorem dictLookup_dictRemove_self {α : Type} (k : String) (l : List (Entry α)) :
    dictLookup k (dictRemove k l) = none := by
  induction l with
  | nil => rfl
  | cons e rest ih =>
    by_cases h : e.key = k
    · simpa [dictRemove, List.filter_cons, h] using ih
    · simpa [dictRemove, List.filter_cons, h, dictLookup] using ih

theorem dictSet_fresh {α : Type} (k : String) (v : α) (t : Int) (l : List (Entry α))
    (h : k ∉ l.map Entry.key) : dictSet k v t l = l ++ [⟨k, v, t⟩] := by
  induction l with
  | nil => rfl
  | cons e rest ih =>
    simp only [List.map_cons, List.mem_cons, not_or] at h
    rw [dictSet, if_neg (fun hk => h.1 hk.symm), ih h.2]
    rfl

/-! ## Claim C2: get respects the TTL -/

/-- C2: `get` returns the stored value exactly when the key is present and
`now - ts ≤ ttl` (leaving the cache unchanged), returns `none` and deletes the
entry when the key is present but expired, returns `none` on an absent key;
`set` followed immediately by `get` on the same key returns the value just
stored, and once time advances beyond `ttl` the same `get` returns `none`. -/
theorem cache_get_ttl_spec {α : Type} (c : SimpleTTLCache α) (k kAbs : String)
    (v w : α) (ts now nowExp t tExp : Int)
    (httl : 0 ≤ c.ttl)
    (hfound : dictLookup k c.entries = some (v, ts))
    (hfresh : now - ts ≤ c.ttl)
    (hexp : c.ttl < nowExp - ts)
    (habsent : dictLookup kAbs c.entries = none)
    (hstale : c.ttl < tExp - t) :
    (c.get now k).1 = some v
    ∧ (c.get now k).2 = c
    ∧ (c.get nowExp k).1 = none
    ∧ dictLookup k ((c.get nowExp k).2).entries = none
    ∧ (c.get now kAbs).1 = none
    ∧ ((c.set t k w).get t k).1 = some w
    ∧ ((c.set t k w).get tExp k).1 = none := by
  have hset : dictLookup k (c.set t k w).entries = some (w, t) :=
    dictLookup_dictSet_self k w t _
  refine ⟨?_, ?_, ?_, ?_, ?_, ?_, ?_⟩
  · rw [SimpleTTLCache.get, hfound]
    simp [not_lt.2 hfresh]
  · rw [SimpleTTLCache.get, hfound]
    simp [not_lt.2 hfresh]
  · rw [SimpleTTLCache.get, hfound]
    simp [hexp]
  · rw [SimpleTTLCache.get, hfound]
    simp only [hexp, if_pos]
    exact dictLookup_dictRemove_self k c.entries
  · rw [SimpleTTLCache.get, habsent]
  · rw [SimpleTTLCache.get, hset]
    have h6 : ¬ t - t > (c.set t k w).ttl := by
      rw [set_ttl]
      omega
    dsimp only
    rw [if_neg h6]
  · rw [SimpleTTLCache.get, hset]
    have h7 : tExp - t > (c.set t k w).ttl := by
      rw [set_ttl]
      omega
    dsimp only
    rw [if_pos h7]

/-- Witness for C2 at a concrete cache. -/
theorem cache_get_ttl_spec_witness :
    (cacheEx2.get 5 "a").1 = some 1
    ∧ (cacheEx2.get 5 "a").2 = cacheEx2
    ∧ (cacheEx2.get 20 "a").1 = none
    ∧ dictLookup "a" ((cacheEx2.get 20 "a").2).entries = none
    ∧ (cacheEx2.get 5 "b").1 = none
    ∧ ((cacheEx2.set 100 "a" 2).get 100 "a").1 = some 2
    ∧ ((cacheEx2.set 100 "a" 2).get 200 "a").1 = none :=
  cache_get_ttl_spec cacheEx2 "a" "b" 1 2 0 5 20 100 200
    (by decide) (by decide) (by decide) (by decide) (by decide) (by decide)

/-! ## Lemmas about `_cleanup` and `set` under the FIFO invariant -/

theorem cleanupEntries_eq_drop {α : Type} (m : Nat) (ttl now : Int) (l : List (Entry α))
    (hlive : ∀ e ∈ l, now - e.ts ≤ ttl)
    (hsorted : l.Sorted tsLe)
    (hnodup : (l.map Entry.key).Nodup) :
    cleanupEntries m ttl now l = l.drop (l.length - m) := by
  have hfilter : l.filter (fun e => decide (¬ (now - e.ts > ttl))) = l := by
    rw [List.filter_eq_self]
    intro e he
    simpa using not_lt.2 (hlive e he)
  simp only [cleanupEntries, hfilter]
  by_cases h : l.length > m
  · rw [if_pos h, hsorted.insertionSort_eq]
    have hsplit : l.map Entry.key
        = (l.take (l.length - m)).map Entry.key ++ (l.drop (l.length - m)).map Entry.key := by
      rw [← List.map_append, List.take_append_drop]
    rw [hsplit] at hnodup
    have hdisj := (List.nodup_append.1 hnodup).2.2
    have h1 : (l.take (l.length - m)).filter
        (fun e => decide (e.key ∉ (l.take (l.length - m)).map Entry.key)) = [] := by
      rw [List.filter_eq_nil_iff]
      intro e he
      simpa using List.mem_map_of_mem Entry.key he
    have h2 : (l.drop (l.length - m)).filter
        (fun e => decide (e.key ∉ (l.take (l.length - m)).map Entry.key))
        = l.drop (l.length - m) := by
      rw [List.filter_eq_self]
      intro e he
      have : e.key ∉ (l.take (l.length - m)).map Entry.key := by
        intro hk
        exact hdisj hk (List.mem_map_of_mem Entry.key he)
      simpa using this
    calc l.filter (fun e => decide (e.key ∉ (l.take (l.length - m)).map Entry.key))
        = (l.take (l.length - m) ++ l.drop (l.length - m)).filter
            (fun e => decide (e.key ∉ (l.take (l.length - m)).map Entry.key)) := by
          rw [List.take_append_drop]
      _ = l.drop (l.length - m) := by rw [List.filter_append, h1, h2, List.nil_append]
  · rw [if_neg h]
    have h0 : l.length - m = 0 := by omega
    rw [h0, List.drop_zero]

theorem set_entries_fifo {α : Type} (c : SimpleTTLCache α) (t : Int) (k : String) (v : α)
    (hlive : ∀ e ∈ c.entries, t - e.ts ≤ c.ttl)
    (hsorted : c.entries.Sorted tsLe)
    (hnodup : (c.entries.map Entry.key).Nodup)
    (hfresh : k ∉ c.entries.map Entry.key) :
    (c.set t k v).entries = fifoStep c.maxsize c.entries ⟨k, v, t⟩ := by
  rw [set_entries]
  have hclean : (c.cleanup t).entries = c.entries.drop (c.entries.length - c.maxsize) :=
    cleanupEntries_eq_drop c.maxsize c.ttl t c.entries hlive hsorted hnodup
  rw [hclean, dictSet_fresh]
  · rfl
  · intro hk
    rw [List.map_drop] at hk
    exact hfresh (List.mem_of_mem_drop hk)

theorem setMany_entries_foldl {α : Type} (ins : List (Int × String × α)) :
    ∀ (c : SimpleTTLCache α),
    (c.entries ++ ins.map insEntry).Pairwise
      (fun a b => a.ts < b.ts ∧ b.ts - a.ts ≤ c.ttl) →
    ((c.entries ++ ins.map insEntry).map Entry.key).Nodup →
    (setMany c ins).entries = (ins.map insEntry).foldl (fifoStep c.maxsize) c.entries := by
  induction ins with
  | nil =>
    intro c _ _
    rfl
  | cons i rest ih =>
    intro c H K
    obtain ⟨t, k, v⟩ := i
    rw [List.map_cons] at H K
    have Hparts := List.pairwise_append.1 H
    have hsorted : c.entries.Sorted tsLe := Hparts.1.imp (fun h => le_of_lt h.1)
    have hlive : ∀ e ∈ c.entries, t - e.ts ≤ c.ttl := by
      intro e he
      exact (Hparts.2.2 e he (insEntry (t, k, v)) (List.mem_cons_self _ _)).2
    rw [List.map_append] at K
    have hnodup : (c.entries.map Entry.key).Nodup := (List.nodup_append.1 K).1
    have hfresh : k ∉ c.entries.map Entry.key := by
      intro hk
      exact (List.nodup_append.1 K).2.2 hk (by simp [insEntry])
    have hstep := set_entries_fifo c t k v hlive hsorted hnodup hfresh
    have hsub : List.Sublist ((c.set t k v).entries ++ rest.map insEntry)
        (c.entries ++ insEntry (t, k, v) :: rest.map insEntry) := by
      rw [hstep]
      show List.Sublist
        ((c.entries.drop (c.entries.length - c.maxsize) ++ [insEntry (t, k, v)])
          ++ rest.map insEntry) _
      rw [List.append_assoc, List.singleton_append]
      exact (List.drop_sublist _ _).append_right _
    have H' : ((c.set t k v).entries ++ rest.map insEntry).Pairwise
        (fun a b => a.ts < b.ts ∧ b.ts - a.ts ≤ (c.set t k v).ttl) := by
      rw [set_ttl]
      exact List.Pairwise.sublist hsub H
    have K' : (((c.set t k v).entries ++ rest.map insEntry).map Entry.key).Nodup := by
      refine List.Nodup.sublist (hsub.map Entry.key) ?_
      rw [List.map_append]
      exact K
    have hrec := ih (c.set t k v) H' K'
    rw [set_maxsize, hstep] at hrec
    show (setMany (c.set t k v) rest).entries = _
    rw [hrec, List.map_cons, List.foldl_cons]
    rfl

theorem fifoStep_eq_drop_append {α : Type} (m : Nat) (l : List (Entry α)) (e : Entry α) :
    fifoStep m l e = (l ++ [e]).drop (l.length + 1 - (m + 1)) := by
  unfold fifoStep
  have h : l.length + 1 - (m + 1) = l.length - m := by omega
  rw [h, List.drop_append_of_le_length (by omega)]

theorem foldl_fifoStep {α : Type} (m : Nat) :
    ∀ (es : List (Entry α)), ∀ (l : List (Entry α)), es ≠ [] →
    es.foldl (fifoStep m) l = (l ++ es).drop (l.length + es.length - (m + 1)) := by
  intro es
  induction es with
  | nil =>
    intro l h
    exact absurd rfl h
  | cons e rest ih =>
    intro l _
    by_cases hr : rest = []
    · subst hr
      show fifoStep m l e = _
      rw [fifoStep_eq_drop_append]
      simp
    · have hle : l.length + 1 - (m + 1) ≤ (l ++ [e]).length := by
        simp only [List.length_append, List.length_cons, List.length_nil]
        omega
      rw [List.foldl_cons, ih (fifoStep m l e) hr, fifoStep_eq_drop_append,
        ← List.drop_append_of_le_length hle, List.drop_drop]
      simp only [List.length_drop, List.length_append, List.length_cons,
        List.length_nil, List.append_assoc, List.singleton_append]
      congr 1
      omega

/-! ## Claim C1: FIFO eviction bound of `set` -/

/-- C1 counterexample: with `maxsize = 1`, inserting 2 distinct keys (more than
`maxsize`) with no expiry leaves 2 keys present — both still returned by `get`
— not `maxsize = 1` keys, because `set` runs `_cleanup` before inserting. -/
theorem cache_eviction_counterexample :
    cacheEx1.maxsize = 1
    ∧ (setMany cacheEx1 insEx).entries.length = 2
    ∧ decide ((setMany cacheEx1 insEx).entries.length = cacheEx1.maxsize) = false
    ∧ ((setMany cacheEx1 insEx).get 1 "a").1 = some 10
    ∧ ((setMany cacheEx1 insEx).get 1 "b").1 = some 20 := by decide

/-- C1 (amended): from any well-formed starting state (strictly increasing
timestamps, distinct keys) inserting `n > maxsize` distinct fresh keys at
strictly increasing times, with no entry reaching its `ttl`, leaves exactly
`maxsize + 1` keys present, namely the `maxsize + 1` most recently inserted
ones in insertion order (the oldest-inserted entries are evicted first). -/
theorem cache_fifo_eviction {α : Type} (c : SimpleTTLCache α)
    (ins : List (Int × String × α))
    (H : (c.entries ++ ins.map insEntry).Pairwise
      (fun a b => a.ts < b.ts ∧ b.ts - a.ts ≤ c.ttl))
    (K : ((c.entries ++ ins.map insEntry).map Entry.key).Nodup)
    (Hn : c.maxsize < ins.length) :
    (setMany c ins).entries
      = (ins.map insEntry).drop (ins.length - (c.maxsize + 1))
    ∧ (setMany c ins).entries.length = c.maxsize + 1 := by
  have hne : (ins.map insEntry) ≠ [] := by
    intro h
    have hlen := congrArg List.length h
    simp only [List.length_map, List.length_nil] at hlen
    omega
  have h1 := setMany_entries_foldl ins c H K
  rw [foldl_fifoStep c.maxsize _ _ hne] at h1
  have hidx : c.entries.length + (ins.map insEntry).length - (c.maxsize + 1)
      = c.entries.length + (ins.length - (c.maxsize + 1)) := by
    simp only [List.length_map]
    omega
  rw [hidx, List.drop_append] at h1
  refine ⟨h1, ?_⟩
  rw [h1]
  simp only [List.length_drop, List.length_map]
  omega

/-- Witness for C1 at a concrete cache: two fresh insertions into an empty
cache with `maxsize = 1` retain both entries in insertion order. -/
theorem cache_fifo_eviction_witness :
    (setMany cacheEx1 insEx).entries = [⟨"a", 10, 0⟩, ⟨"b", 20, 1⟩]
    ∧ (setMany cacheEx1 insEx).entries.length = 2 := by
  have h := cache_fifo_eviction cacheEx1 insEx (by decide) (by decide) (by decide)
  exact ⟨h.1.trans (by decide), h.2⟩

/-! ## Claim C9: `len` is bounded by `maxsize` and mutates the cache -/

theorem length_filter_mem_split {β : Type} (P : β → Prop) [DecidablePred P]
    (l : List β) :
    (l.filter (fun b => decide (P b))).length
      + (l.filter (fun b => decide (¬ P b))).length = l.length := by
  induction l with
  | nil => rfl
  | cons a t ih =>
    simp only [decide_not] at ih ⊢
    by_cases h : P a <;> simp [List.filter_cons, h] <;> omega

theorem cleanupEntries_length_le {α : Type} (m : Nat) (ttl now : Int)
    (l : List (Entry α)) : (cleanupEntries m ttl now l).length ≤ m := by
  simp only [cleanupEntries]
  by_cases h : (l.filter (fun e => decide (¬ (now - e.ts > ttl)))).length > m
  · rw [if_pos h]
    generalize hL : l.filter (fun e => decide (¬ (now - e.ts > ttl))) = L at h
    have hsplit := length_filter_mem_split
      (fun e => e.key ∈ ((L.insertionSort tsLe).take (L.length - m)).map Entry.key) L
    have hmem : (L.filter (fun e => decide (e.key
        ∈ ((L.insertionSort tsLe).take (L.length - m)).map Entry.key))).length
        ≥ L.length - m := by
      have hperm : List.Perm (L.insertionSort tsLe) L := List.perm_insertionSort tsLe L
      have hcnt : L.countP (fun e => decide (e.key
          ∈ ((L.insertionSort tsLe).take (L.length - m)).map Entry.key))
          = (L.insertionSort tsLe).countP (fun e => decide (e.key
            ∈ ((L.insertionSort tsLe).take (L.length - m)).map Entry.key)) :=
        (hperm.countP_eq _).symm
      have htake : ((L.insertionSort tsLe).take (L.length - m)).countP
          (fun e => decide (e.key
            ∈ ((L.insertionSort tsLe).take (L.length - m)).map Entry.key))
          = ((L.insertionSort tsLe).take (L.length - m)).length := by
        rw [List.countP_eq_length]
        intro e he
        simpa using List.mem_map_of_mem Entry.key he
      have hlen : ((L.insertionSort tsLe).take (L.length - m)).length = L.length - m := by
        rw [List.length_take, hperm.length_eq]
        omega
      have hsub : ((L.insertionSort tsLe).take (L.length - m)).countP
          (fun e => decide (e.key
            ∈ ((L.insertionSort tsLe).take (L.length - m)).map Entry.key))
          ≤ (L.insertionSort tsLe).countP (fun e => decide (e.key
            ∈ ((L.insertionSort tsLe).take (L.length - m)).map Entry.key)) :=
        (List.take_sublist _ _).countP_le _
      rw [← List.countP_eq_length_filter, hcnt]
      omega
    omega
  · rw [if_neg h]
    omega

/-- C9: for every cache state the reported `len` is at most `maxsize`; the
`len` observer itself mutates the cache — on the concrete over-capacity cache
`cacheEx3` (two live entries, `maxsize = 1`) a `get "a"` would return the value,
`len` reports `1`, and after that `len` call the same `get "a"` returns `none`
because the oldest live entry was evicted by the observer. -/
theorem cache_len_mutating_bound {α : Type} (c : SimpleTTLCache α) (now : Int) :
    (c.lenOp now).1 ≤ c.maxsize
    ∧ cacheEx3.maxsize = 1
    ∧ (cacheEx3.get 2 "a").1 = some 1
    ∧ (cacheEx3.lenOp 2).1 = 1
    ∧ (((cacheEx3.lenOp 2).2).get 2 "a").1 = none := by
  refine ⟨?_, by decide, by decide, by decide, by decide⟩
  show (cleanupEntries c.maxsize c.ttl now c.entries).length ≤ c.maxsize
  exact cleanupEntries_length_le c.maxsize c.ttl now c.entries

/-! ## Claim C3: media category inference -/

theorem extCategory_mem (ext : String) :
    extCategory ext ∈ (["image", "video", "3d"] : List String) := by
  unfold extCategory
  split
  · simp
  · split
    · simp
    · split <;> simp

theorem recognizeTag_mem {m c : String} (h : recognizeTag m = some c) :
    c ∈ (["image", "video", "3d"] : List String) := by
  unfold recognizeTag recognizeTagOf at h
  split at h
  · simp only [Option.some.injEq] at h
    simp [← h]
  · split at h
    · simp only [Option.some.injEq] at h
      simp [← h]
    · split at h
      · simp only [Option.some.injEq] at h
        simp [← h]
      · simp at h

/-- C3: the classifier consults the stored tag first when it is recognised
(and the tag is truthy), always produces one of `image`, `video`, `3d`, and
on extensions behaves as specified: `.mp4` is `video`, `.glb` is `3d`,
`.png` is `image`, and an unknown extension with no recognised tag defaults
to `image`. -/
theorem media_category_spec (f ft mt : Option String) (mtag cat : String)
    (hne : (mtag == "") = false)
    (htag : recognizeTag mtag = some cat) :
    get_media_category f ft (some mtag) = cat
    ∧ get_media_category f ft mt ∈ (["image", "video", "3d"] : List String)
    ∧ get_media_category (some "clip.mp4") none none = "video"
    ∧ get_media_category (some "model.glb") none none = "3d"
    ∧ get_media_category (some "photo.png") none none = "image"
    ∧ get_media_category (some "file.xyz") none none = "image" := by
  refine ⟨?_, ?_, by decide, by decide, by decide, by decide⟩
  · have hne' : ¬ mtag = "" := by simpa using hne
    show (if mtag = "" then extCategory (extOf f ft)
      else match recognizeTag mtag with
        | some c => c
        | none => extCategory (extOf f ft)) = cat
    rw [if_neg hne', htag]
  · cases mt with
    | none => exact extCategory_mem _
    | some s =>
      show (if s = "" then extCategory (extOf f ft)
        else match recognizeTag s with
          | some c => c
          | none => extCategory (extOf f ft)) ∈ _
      by_cases hs : s = ""
      · rw [if_pos hs]
        exact extCategory_mem _
      · rw [if_neg hs]
        cases hr : recognizeTag s with
        | none => exact extCategory_mem _
        | some c2 =>
          exact recognizeTag_mem hr

/-- Witness for C3: an uppercase padded tag `"FOTO "` is recognised as
`image` and overrides an `.mp4` filename. -/
theorem media_category_spec_witness :
    get_media_category (some "clip.mp4") none (some "FOTO ") = "image"
    ∧ get_media_category (some "clip.mp4") none (some "video") ∈
        (["image", "video", "3d"] : List String)
    ∧ get_media_category (some "clip.mp4") none none = "video"
    ∧ get_media_category (some "model.glb") none none = "3d"
    ∧ get_media_category (some "photo.png") none none = "image"
    ∧ get_media_category (some "file.xyz") none none = "image" :=
  media_category_spec (some "clip.mp4") none (some "video") "FOTO " "image"
    (by decide) (by decide)

/-! ## Claim C4: media URL resolution strategy -/

/-- C4: with the CDN disabled the resolved URL is the self-hosted proxy URL for
every category; with the CDN enabled and category `image` it is the Cloudinary
fetch URL, which carries the CDN host and the transformation parameters and
wraps the percent-encoded proxy URL; with the CDN enabled and a non-image
category (`video` or `3d`) it is again the proxy URL. -/
theorem media_url_resolution (sOff sOn : Settings) (fp : String) (b : Bool)
    (cat catAny : String)
    (hoff : sOff.CLOUDINARY_ENABLED = false)
    (hon : sOn.CLOUDINARY_ENABLED = true)
    (hfp : (fp == "") = false)
    (hcat : cat = "video" ∨ cat = "3d") :
    getMediaUrl sOff (some fp) b catAny = some (publicProxyUrl sOff fp b)
    ∧ getMediaUrl sOn (some fp) b "image"
        = some ("https://res.cloudinary.com/" ++ sOn.CLOUDINARY_CLOUD_NAME
            ++ "/image/fetch/"
            ++ (if b then "f_auto,q_auto,w_150,h_150,c_fill"
               else "f_auto,q_auto:good,w_1200,c_limit")
            ++ "/" ++ urllibQuote (publicProxyUrl sOn fp b))
    ∧ getMediaUrl sOn (some fp) b cat = some (publicProxyUrl sOn fp b) := by
  refine ⟨?_, ?_, ?_⟩
  · simp [getMediaUrl, pyTruthyStr, hfp, hoff]
  · simp [getMediaUrl, pyTruthyStr, hfp, hon, cloudinaryUrl]
  · rcases hcat with h | h <;> subst h <;>
      simp [getMediaUrl, pyTruthyStr, hfp, hon]

/-- Witness for C4 at a concrete configuration and path. -/
theorem media_url_resolution_witness :
    getMediaUrl settingsOff (some "us/area 1/photo.png") true "3d"
        = some (publicProxyUrl settingsOff "us/area 1/photo.png" true)
    ∧ getMediaUrl settingsOn (some "us/area 1/photo.png") true "image"
        = some ("https://res.cloudinary.com/" ++ settingsOn.CLOUDINARY_CLOUD_NAME
            ++ "/image/fetch/"
            ++ (if true then "f_auto,q_auto,w_150,h_150,c_fill"
               else "f_auto,q_auto:good,w_1200,c_limit")
            ++ "/" ++ urllibQuote (publicProxyUrl settingsOn "us/area 1/photo.png" true))
    ∧ getMediaUrl settingsOn (some "us/area 1/photo.png") true "video"
        = some (publicProxyUrl settingsOn "us/area 1/photo.png" true) :=
  media_url_resolution settingsOff settingsOn "us/area 1/photo.png" true "video" "3d"
    (by decide) (by decide) (by decide) (Or.inl rfl)

/-! ## Claim C10: the binary media endpoints always resolve with the default
category `image` -/

/-- C10: `get_thumbnail` and `get_full_image` call `get_media_url` without the
item's category, so the default `"image"` applies: with the CDN enabled, every
found media row — whatever its filename or stored type classifies as — is
answered with a 302 redirect to the Cloudinary image-fetch URL, never with the
self-hosted proxy URL. -/
theorem thumbnail_ignores_category (s : Settings) (row : MediaRow)
    (hen : s.CLOUDINARY_ENABLED = true)
    (hfp : pyTruthyStr row.filepath = true) :
    get_thumbnail s row = .ok (.redirect (cloudinaryUrl s (row.filepath.getD "") true))
    ∧ get_full_image s row
        = .ok (.redirect (cloudinaryUrl s
            ((pyOrOptStr row.path_resize row.filepath).getD "") false)) := by
  have hfp2 : pyTruthyStr (pyOrOptStr row.path_resize row.filepath) = true := by
    unfold pyOrOptStr
    by_cases h : pyTruthyStr row.path_resize
    · rw [if_pos h]
      exact h
    · rw [if_neg h]
      exact hfp
  constructor
  · simp [get_thumbnail, getMediaUrl, hen, hfp]
  · simp [get_full_image, getMediaUrl, hen, hfp2]

/-- Witness for C10: a row whose filename classifies as `video` is still
redirected to the Cloudinary image-fetch URL by both endpoints. -/
theorem thumbnail_ignores_category_witness :
    get_media_category mediaRowEx.media_filename mediaRowEx.filetype none = "video"
    ∧ get_thumbnail settingsOn mediaRowEx
        = .ok (.redirect (cloudinaryUrl settingsOn (mediaRowEx.filepath.getD "") true))
    ∧ get_full_image settingsOn mediaRowEx
        = .ok (.redirect (cloudinaryUrl settingsOn
            ((pyOrOptStr mediaRowEx.path_resize mediaRowEx.filepath).getD "") false)) := by
  have h := thumbnail_ignores_category settingsOn mediaRowEx (by decide) (by decide)
  exact ⟨by decide, h.1, h.2⟩

/-! ## Claim C5: exports return 404 on zero rows and never an empty document -/

/-- C5: when the filtered query yields zero rows the US export endpoints
return 404 instead of a document; when it yields at least one row they return
a complete document with one row per matching record — so no export produces
an empty document. -/
theorem export_us_zero_rows (db1 db2 : List USRow) (s1 a1 p1 s2 a2 p2 : Option String)
    (h1 : db1.filter (usExportFilter s1 a1 p1) = [])
    (h2 : 0 < (db2.filter (usExportFilter s2 a2 p2)).length) :
    export_us_excel db1 s1 a1 p1 = .error 404
    ∧ export_us_pdf db1 s1 a1 p1 = .error 404
    ∧ export_us_excel db2 s2 a2 p2 = .ok (usExcelDoc db2 s2 a2 p2)
    ∧ (usExcelDoc db2 s2 a2 p2).rows.length
        = (db2.filter (usExportFilter s2 a2 p2)).length
    ∧ 0 < (usExcelDoc db2 s2 a2 p2).rows.length
    ∧ export_us_pdf db2 s2 a2 p2 = .ok (usPdfDoc db2 s2 a2 p2)
    ∧ (usPdfDoc db2 s2 a2 p2).dataRows.length
        = (db2.filter (usExportFilter s2 a2 p2)).length
    ∧ 0 < (usPdfDoc db2 s2 a2 p2).dataRows.length := by
  have hdata1 : usExportData db1 s1 a1 p1 = [] := by
    unfold usExportData
    rw [h1]
    rfl
  have hlen2 : 0 < (usExportData db2 s2 a2 p2).length := by
    unfold usExportData
    rw [(List.perm_insertionSort usLe _).length_eq]
    exact h2
  have hne2 : (usExportData db2 s2 a2 p2).isEmpty = false := by
    cases hE : usExportData db2 s2 a2 p2 with
    | nil =>
      rw [hE] at hlen2
      simp at hlen2
    | cons x xs => rfl
  have hlenEq : (usExportData db2 s2 a2 p2).length
      = (db2.filter (usExportFilter s2 a2 p2)).length :=
    (List.perm_insertionSort usLe _).length_eq
  refine ⟨?_, ?_, ?_, ?_, ?_, ?_, ?_, ?_⟩
  · simp [export_us_excel, hdata1]
  · simp [export_us_pdf, hdata1]
  · simp [export_us_excel, hne2]
  · show ((usExportData db2 s2 a2 p2).map _).length = _
    rw [List.length_map]
    exact hlenEq
  · show 0 < ((usExportData db2 s2 a2 p2).map _).length
    rw [List.length_map]
    exact hlen2
  · simp [export_us_pdf, hne2]
  · show ((usExportData db2 s2 a2 p2).map _).length = _
    rw [List.length_map]
    exact hlenEq
  · show 0 < ((usExportData db2 s2 a2 p2).map _).length
    rw [List.length_map]
    exact hlen2

/-- Witness for C5: the empty table gives 404 on both exports; a one-row table
gives a one-row document on both exports. -/
theorem export_us_zero_rows_witness :
    export_us_excel [] none none none = .error 404
    ∧ export_us_pdf [] none none none = .error 404
    ∧ export_us_excel [usRowEx] none none none
        = .ok (usExcelDoc [usRowEx] none none none)
    ∧ (usExcelDoc [usRowEx] none none none).rows.length = 1
    ∧ 0 < (usExcelDoc [usRowEx] none none none).rows.length
    ∧ export_us_pdf [usRowEx] none none none
        = .ok (usPdfDoc [usRowEx] none none none)
    ∧ (usPdfDoc [usRowEx] none none none).dataRows.length = 1 := by
  have h := export_us_zero_rows [] [usRowEx] none none none none none none
    (by rfl) (by decide)
  exact ⟨h.1, h.2.1, h.2.2.1, h.2.2.2.1.trans (by decide), h.2.2.2.2.1,
    h.2.2.2.2.2.1, h.2.2.2.2.2.2.1.trans (by decide)⟩

/-! ## Claim C6: malformed id lists are rejected with 400 -/

/-- C6: the search exports return 400 exactly when no token of the
comma-separated id list parses as a numeric id; with at least one valid id
they never return 400 but proceed — 404 on no matching row, otherwise the
document built from exactly the rows whose ids were requested. -/
theorem export_search_bad_ids (db : List MatRow) (ids1 ids2 : String)
    (h1 : parseIds ids1 = [])
    (h2 : 0 < (parseIds ids2).length) :
    export_materials_search_excel db ids1 = .error 400
    ∧ export_materials_search_pdf db ids1 = .error 400
    ∧ (export_materials_search_excel db ids2 = .error 404
        ∨ export_materials_search_excel db ids2 = .ok (matSearchExcelDoc db ids2))
    ∧ (export_materials_search_pdf db ids2 = .error 404
        ∨ export_materials_search_pdf db ids2 = .ok (matSearchPdfDoc db ids2))
    ∧ ((searchRows db ids2).map MatRow.id_invmat).all
        (fun i => decide (i ∈ parseIds ids2)) = true := by
  have hne2 : (parseIds ids2).isEmpty = false := by
    cases hE : parseIds ids2 with
    | nil =>
      rw [hE] at h2
      simp at h2
    | cons x xs => rfl
  refine ⟨?_, ?_, ?_, ?_, ?_⟩
  · simp [export_materials_search_excel, h1]
  · simp [export_materials_search_pdf, h1]
  · by_cases hE : (searchRows db ids2).isEmpty
    · left
      simp [export_materials_search_excel, hne2, hE]
    · right
      simp [export_materials_search_excel, hne2, hE]
  · by_cases hE : (searchRows db ids2).isEmpty
    · left
      simp [export_materials_search_pdf, hne2, hE]
    · right
      simp [export_materials_search_pdf, hne2, hE]
  · rw [List.all_eq_true]
    intro i hi
    rw [List.mem_map] at hi
    obtain ⟨m, hm, rfl⟩ := hi
    unfold searchRows at hm
    rw [List.mem_insertionSort] at hm
    exact (List.mem_filter.1 hm).2

/-- Witness for C6: an id list with no parseable token is rejected with 400,
while `"12, 007, x"` parses to `[12, 7]` and proceeds. -/
theorem export_search_bad_ids_witness :
    parseIds "a, -3, 1.5," = []
    ∧ parseIds "12, 007, x" = [12, 7]
    ∧ export_materials_search_excel [matRowEx] "a, -3, 1.5," = .error 400
    ∧ export_materials_search_pdf [matRowEx] "a, -3, 1.5," = .error 400
    ∧ (export_materials_search_excel [matRowEx] "12, 007, x" = .error 404
        ∨ export_materials_search_excel [matRowEx] "12, 007, x"
            = .ok (matSearchExcelDoc [matRowEx] "12, 007, x"))
    ∧ ((searchRows [matRowEx] "12, 007, x").map MatRow.id_invmat).all
        (fun i => decide (i ∈ parseIds "12, 007, x")) = true := by
  have h := export_search_bad_ids [matRowEx] "a, -3, 1.5," "12, 007, x"
    (by decide) (by decide)
  exact ⟨by decide, by decide, h.1, h.2.1, h.2.2.1, h.2.2.2.2⟩

/-! ## Partition lemmas for the grouped aggregations -/

theorem sum_map_filter_split {β M : Type} [AddCommMonoid M] (p : β → Bool) (g : β → M)
    (l : List β) :
    ((l.filter p).map g).sum + ((l.filter (fun x => !(p x))).map g).sum
      = (l.map g).sum := by
  induction l with
  | nil => simp
  | cons a t ih =>
    cases hp : p a
    · have h1 : (a :: t).filter p = t.filter p := by simp [List.filter_cons, hp]
      have h2 : (a :: t).filter (fun x => !(p x)) = a :: t.filter (fun x => !(p x)) := by
        simp [List.filter_cons, hp]
      rw [h1, h2, List.map_cons, List.sum_cons, List.map_cons, List.sum_cons, ← ih,
        add_left_comm]
    · have h1 : (a :: t).filter p = a :: t.filter p := by simp [List.filter_cons, hp]
      have h2 : (a :: t).filter (fun x => !(p x)) = t.filter (fun x => !(p x)) := by
        simp [List.filter_cons, hp]
      rw [h1, h2, List.map_cons, List.sum_cons, List.map_cons, List.sum_cons, ← ih,
        add_assoc]

theorem partition_sum {β κ M : Type} [DecidableEq κ] [AddCommMonoid M]
    (f : β → κ) (g : β → M) :
    ∀ (keys : List κ), ∀ (l : List β), keys.Nodup → (∀ x ∈ l, f x ∈ keys) →
    (keys.map (fun k => ((l.filter (fun x => decide (f x = k))).map g).sum)).sum
      = (l.map g).sum := by
  intro keys
  induction keys with
  | nil =>
    intro l _ hcov
    cases l with
    | nil => simp
    | cons a t => exact absurd (hcov a (by simp)) (by simp)
  | cons k ks ih =>
    intro l hnd hcov
    rw [List.map_cons, List.sum_cons]
    have hsplit := sum_map_filter_split (fun x => decide (f x = k)) g l
    have htail : ∀ k' ∈ ks,
        ((l.filter (fun x => decide (f x = k'))).map g).sum
          = (((l.filter (fun x => !(decide (f x = k)))).filter
              (fun x => decide (f x = k'))).map g).sum := by
      intro k' hk'
      have hkk : k' ≠ k := by
        rintro rfl
        exact (List.nodup_cons.1 hnd).1 hk'
      congr 1
      rw [List.filter_filter]
      congr 1
      refine List.filter_congr ?_
      intro x _
      by_cases hfx : f x = k'
      · have : ¬ f x = k := by
          rw [hfx]
          exact hkk
        simp [hfx, this, hkk]
      · simp [hfx]
    have hcov' : ∀ x ∈ l.filter (fun x => !(decide (f x = k))), f x ∈ ks := by
      intro x hx
      rw [List.mem_filter] at hx
      have hin := hcov x hx.1
      have hne : ¬ f x = k := by
        have := hx.2
        simp at this
        exact this
      rcases List.mem_cons.1 hin with h | h
      · exact absurd h hne
      · exact h
    have hks := ih (l.filter (fun x => !(decide (f x = k))))
      (List.nodup_cons.1 hnd).2 hcov'
    rw [List.map_congr_left htail, hks, hsplit]

theorem sum_map_one {β : Type} (l : List β) :
    (l.map (fun _ => (1 : Nat))).sum = l.length := by
  induction l with
  | nil => rfl
  | cons a t ih => simp [ih, Nat.add_comm]

theorem partition_count {β κ : Type} [DecidableEq κ] (f : β → κ)
    (keys : List κ) (l : List β) (hnd : keys.Nodup) (hcov : ∀ x ∈ l, f x ∈ keys) :
    (keys.map (fun k => (l.filter (fun x => decide (f x = k))).length)).sum
      = l.length := by
  have h := partition_sum f (fun _ => (1 : Nat)) keys l hnd hcov
  rw [sum_map_one] at h
  rw [← h]
  congr 1
  refine List.map_congr_left ?_
  intro k _
  rw [sum_map_one]

theorem mem_foldl_dedup {κ : Type} [DecidableEq κ] :
    ∀ (l acc : List κ) (x : κ),
    (x ∈ l.foldl (fun acc a => if a ∈ acc then acc else acc ++ [a]) acc
      ↔ x ∈ acc ∨ x ∈ l) := by
  intro l
  induction l with
  | nil =>
    intro acc x
    simp
  | cons a t ih =>
    intro acc x
    rw [List.foldl_cons, ih]
    by_cases h : a ∈ acc
    · rw [if_pos h]
      simp only [List.mem_cons]
      constructor
      · intro hx
        tauto
      · rintro (hx | rfl | hx) <;> tauto
    · rw [if_neg h]
      simp only [List.mem_append, List.mem_singleton, List.mem_cons]
      tauto

theorem nodup_foldl_dedup {κ : Type} [DecidableEq κ] :
    ∀ (l acc : List κ), acc.Nodup →
    (l.foldl (fun acc a => if a ∈ acc then acc else acc ++ [a]) acc).Nodup := by
  intro l
  induction l with
  | nil =>
    intro acc hacc
    exact hacc
  | cons a t ih =>
    intro acc hacc
    rw [List.foldl_cons]
    by_cases h : a ∈ acc
    · rw [if_pos h]
      exact ih acc hacc
    · rw [if_neg h]
      refine ih _ ?_
      simp [List.nodup_append, hacc, h]

theorem firstOccDedup_nodup {κ : Type} [DecidableEq κ] (l : List κ) :
    (firstOccDedup l).Nodup :=
  nodup_foldl_dedup l [] List.nodup_nil

theorem mem_firstOccDedup {κ : Type} [DecidableEq κ] (l : List κ) (x : κ) :
    x ∈ firstOccDedup l ↔ x ∈ l := by
  rw [firstOccDedup, mem_foldl_dedup]
  simp

/-! ## Claim C7: materials summary counts and weights -/

/-- C7: in the materials summary every storage location reports a total item
count equal to the sum of its per-box counts, which equals the number of
records stored at that location; the total material count is the number of
filtered records; and the inventory export's aggregate weight — the sum of
`peso or 0` over all records, counting records with missing weight as zero —
equals the sum of the per-box group weights. -/
theorem materials_summary_sums (db : List MatRow) (sito : Option String)
    (loc : StorageSummary)
    (hloc : loc ∈ (get_materials_summary db sito).storage_locations) :
    loc.total_items = (loc.boxes.map BoxSummary.total_items).sum
    ∧ loc.total_items = ((db.filter (siteFilterM sito)).filter
        (fun m => decide (storageOf m = loc.luogo_conservazione))).length
    ∧ (get_materials_summary db sito).total_materials
        = (db.filter (siteFilterM sito)).length
    ∧ exportBoxWeightSum db sito = exportTotalWeight db sito := by
  have hmem : loc ∈ (firstOccDedup ((db.filter (siteFilterM sito)).map storageOf)).map
      (buildStorage (db.filter (siteFilterM sito))) := by
    have h := hloc
    simp only [get_materials_summary] at h
    rwa [List.mem_insertionSort] at h
  obtain ⟨sname, _, rfl⟩ := List.mem_map.1 hmem
  refine ⟨?_, ?_, rfl, ?_⟩
  · show ((buildBoxes _ sname).map BoxSummary.total_items).sum = _
    have hperm := (List.perm_insertionSort boxLe
      (buildBoxes ((db.filter (siteFilterM sito)).filter
        (fun m => decide (storageOf m = sname))) sname)).map BoxSummary.total_items
    exact hperm.sum_eq.symm
  · show ((buildBoxes _ sname).map BoxSummary.total_items).sum = _
    have hrows : (buildStorage (db.filter (siteFilterM sito)) sname).luogo_conservazione
        = sname := rfl
    rw [hrows]
    unfold buildBoxes
    rw [List.map_map]
    exact partition_count boxKeyOf _ _ (firstOccDedup_nodup _)
      (fun x hx => (mem_firstOccDedup _ _).2 (List.mem_map_of_mem boxKeyOf hx))
  · simp only [exportBoxWeightSum, exportTotalWeight]
    have inner : ∀ sname' ∈ firstOccDedup ((db.filter (siteFilterM sito)).map
        exportStorageOf),
        ((firstOccDedup (((db.filter (siteFilterM sito)).filter
            (fun m => decide (exportStorageOf m = sname'))).map exportBoxOf)).map
          (fun b => ((((db.filter (siteFilterM sito)).filter
            (fun m => decide (exportStorageOf m = sname'))).filter
              (fun m => decide (exportBoxOf m = b))).map pesoOr0).sum)).sum
          = (((db.filter (siteFilterM sito)).filter
              (fun m => decide (exportStorageOf m = sname'))).map pesoOr0).sum := by
      intro sname' _
      exact partition_sum exportBoxOf pesoOr0 _ _ (firstOccDedup_nodup _)
        (fun x hx => (mem_firstOccDedup _ _).2 (List.mem_map_of_mem exportBoxOf hx))
    rw [List.map_congr_left inner]
    exact partition_sum exportStorageOf pesoOr0 _ _ (firstOccDedup_nodup _)
      (fun x hx => (mem_firstOccDedup _ _).2 (List.mem_map_of_mem exportStorageOf hx))

/-- Witness for C7: one storage location with two boxes holding 2 and 1 items
(one record with missing weight is still counted). -/
theorem materials_summary_sums_witness :
    (buildStorage (matDbEx.filter (siteFilterM none)) "Dep A").total_items
        = ((buildStorage (matDbEx.filter (siteFilterM none)) "Dep A").boxes.map
            BoxSummary.total_items).sum
    ∧ (buildStorage (matDbEx.filter (siteFilterM none)) "Dep A").total_items = 3
    ∧ (get_materials_summary matDbEx none).total_materials = 3
    ∧ exportBoxWeightSum matDbEx none = exportTotalWeight matDbEx none := by
  have h := materials_summary_sums matDbEx none
    (buildStorage (matDbEx.filter (siteFilterM none)) "Dep A") (by decide)
  exact ⟨h.1, h.2.1.trans (by decide), h.2.2.1.trans (by decide), h.2.2.2⟩

/-! ## Order lemmas for the ORDER BY relations -/

theorem strLeB_total (x : List Char) : ∀ y, strLeB x y = true ∨ strLeB y x = true := by
  induction x with
  | nil =>
    intro y
    left
    rfl
  | cons a as ih =>
    intro y
    cases y with
    | nil =>
      right
      rfl
    | cons b bs =>
      by_cases h1 : a.toNat < b.toNat
      · left
        simp [strLeB, h1]
      · by_cases h2 : b.toNat < a.toNat
        · right
          simp [strLeB, h1, h2]
        · have := ih bs
          simpa [strLeB, h1, h2] using this

theorem strLeB_trans (x : List Char) :
    ∀ y z, strLeB x y = true → strLeB y z = true → strLeB x z = true := by
  induction x with
  | nil =>
    intro y z _ _
    rfl
  | cons a as ih =>
    intro y z hxy hyz
    cases y with
    | nil => simp [strLeB] at hxy
    | cons b bs =>
      cases z with
      | nil => simp [strLeB] at hyz
      | cons c cs =>
        simp only [strLeB] at hxy hyz ⊢
        split_ifs at hxy hyz ⊢ <;>
          first
          | rfl
          | omega
          | exact ih bs cs hxy hyz

theorem strLeB_antisymm (x : List Char) :
    ∀ y, strLeB x y = true → strLeB y x = true → x = y := by
  induction x with
  | nil =>
    intro y _ hyx
    cases y with
    | nil => rfl
    | cons b bs => simp [strLeB] at hyx
  | cons a as ih =>
    intro y hxy hyx
    cases y with
    | nil => simp [strLeB] at hxy
    | cons b bs =>
      simp only [strLeB] at hxy hyx
      by_cases h1 : a.toNat < b.toNat
      · have h2 : ¬ b.toNat < a.toNat := by omega
        rw [if_neg h2, if_pos h1] at hyx
        simp at hyx
      · by_cases h2 : b.toNat < a.toNat
        · rw [if_neg h1, if_pos h2] at hxy
          simp at hxy
        · rw [if_neg h1, if_neg h2] at hxy
          rw [if_neg h2, if_neg h1] at hyx
          have hab : a = b := by
            have hnat : a.toNat = b.toNat := by omega
            have hv : a.val = b.val := UInt32.toNat.inj hnat
            cases a
            cases b
            simp only at hv
            subst hv
            rfl
          rw [hab, ih bs hxy hyx]

theorem optStrLeB_total (x y : Option String) :
    optStrLeB x y = true ∨ optStrLeB y x = true := by
  cases x <;> cases y <;> simp [optStrLeB]
  exact strLeB_total _ _

theorem optStrLeB_trans (x y z : Option String) :
    optStrLeB x y = true → optStrLeB y z = true → optStrLeB x z = true := by
  cases x <;> cases y <;> cases z <;> simp [optStrLeB]
  exact strLeB_trans _ _ _

theorem optStrLeB_antisymm (x y : Option String) :
    optStrLeB x y = true → optStrLeB y x = true → x = y := by
  cases x with
  | none =>
    cases y with
    | none =>
      intro _ _
      rfl
    | some s =>
      intro h _
      simp [optStrLeB] at h
  | some s =>
    cases y with
    | none =>
      intro _ h
      simp [optStrLeB] at h
    | some t =>
      intro h1 h2
      simp only [optStrLeB] at h1 h2
      have : s.data = t.data := strLeB_antisymm _ _ h1 h2
      cases s
      cases t
      simp only at this
      rw [this]

theorem optIntLeB_total (x y : Option Int) :
    optIntLeB x y = true ∨ optIntLeB y x = true := by
  cases x <;> cases y <;> simp [optIntLeB] <;> omega

theorem optIntLeB_trans (x y z : Option Int) :
    optIntLeB x y = true → optIntLeB y z = true → optIntLeB x z = true := by
  cases x <;> cases y <;> cases z <;> simp [optIntLeB] <;> omega

theorem lex2_total {γ δ : Type} [DecidableEq γ] (le1 : γ → γ → Bool)
    (le2 : δ → δ → Bool)
    (h1 : ∀ x y, le1 x y = true ∨ le1 y x = true)
    (h2 : ∀ x y, le2 x y = true ∨ le2 y x = true) :
    ∀ a b, lex2 le1 le2 a b = true ∨ lex2 le1 le2 b a = true := by
  intro a b
  unfold lex2
  by_cases h : a.1 = b.1
  · rw [if_pos h, if_pos h.symm]
    exact h2 _ _
  · rw [if_neg h, if_neg (fun hh => h hh.symm)]
    exact h1 _ _

theorem lex2_trans {γ δ : Type} [DecidableEq γ] (le1 : γ → γ → Bool)
    (le2 : δ → δ → Bool)
    (h1t : ∀ x y z, le1 x y = true → le1 y z = true → le1 x z = true)
    (h1a : ∀ x y, le1 x y = true → le1 y x = true → x = y)
    (h2t : ∀ x y z, le2 x y = true → le2 y z = true → le2 x z = true) :
    ∀ a b c, lex2 le1 le2 a b = true → lex2 le1 le2 b c = true
      → lex2 le1 le2 a c = true := by
  intro a b c hab hbc
  unfold lex2 at hab hbc ⊢
  by_cases h1 : a.1 = b.1 <;> by_cases h2 : b.1 = c.1
  · rw [if_pos h1] at hab
    rw [if_pos h2] at hbc
    rw [if_pos (h1.trans h2)]
    exact h2t _ _ _ hab hbc
  · rw [if_pos h1] at hab
    rw [if_neg h2] at hbc
    have hac : ¬ a.1 = c.1 := fun h => h2 (h1.symm.trans h)
    rw [if_neg hac, h1]
    exact hbc
  · rw [if_neg h1] at hab
    rw [if_pos h2] at hbc
    have hac : ¬ a.1 = c.1 := fun h => h1 (h.trans h2.symm)
    rw [if_neg hac, ← h2]
    exact hab
  · rw [if_neg h1] at hab
    rw [if_neg h2] at hbc
    by_cases hac : a.1 = c.1
    · exfalso
      apply h1
      refine h1a _ _ hab ?_
      rw [← hac] at hbc
      exact hbc
    · rw [if_neg hac]
      exact h1t _ _ _ hab hbc

instance : IsTotal USRow usLe :=
  ⟨fun a b => lex2_total optStrLeB (lex2 optStrLeB optStrLeB) optStrLeB_total
    (lex2_total optStrLeB optStrLeB optStrLeB_total optStrLeB_total)
    (a.sito, a.area, a.us) (b.sito, b.area, b.us)⟩

instance : IsTrans USRow usLe :=
  ⟨fun a b c => lex2_trans optStrLeB (lex2 optStrLeB optStrLeB) optStrLeB_trans
    optStrLeB_antisymm
    (lex2_trans optStrLeB optStrLeB optStrLeB_trans optStrLeB_antisymm optStrLeB_trans)
    (a.sito, a.area, a.us) (b.sito, b.area, b.us) (c.sito, c.area, c.us)⟩

instance : IsTotal MatRow matLe :=
  ⟨fun a b => lex2_total optStrLeB optIntLeB optStrLeB_total optIntLeB_total
    (a.sito, a.numero_inventario) (b.sito, b.numero_inventario)⟩

instance : IsTrans MatRow matLe :=
  ⟨fun a b c => lex2_trans optStrLeB optIntLeB optStrLeB_trans optStrLeB_antisymm
    optIntLeB_trans
    (a.sito, a.numero_inventario) (b.sito, b.numero_inventario)
    (c.sito, c.numero_inventario)⟩

instance : IsTotal MatRow invLe :=
  ⟨fun a b => optIntLeB_total a.numero_inventario b.numero_inventario⟩

instance : IsTrans MatRow invLe :=
  ⟨fun a b c => optIntLeB_trans a.numero_inventario b.numero_inventario
    c.numero_inventario⟩

instance : IsTotal StorageSummary storLe :=
  ⟨fun a b => strLeB_total a.luogo_conservazione.data b.luogo_conservazione.data⟩

instance : IsTrans StorageSummary storLe :=
  ⟨fun a b c => strLeB_trans a.luogo_conservazione.data b.luogo_conservazione.data
    c.luogo_conservazione.data⟩

/-! ## Claim C8: list reads are returned in the fixed sort order -/

/-- C8: for every database content, filter combination and pagination window,
the stratigraphic-unit list and paginated reads are sorted by
(site, area, unit identifier) and the materials read is sorted by
(site, inventory number). -/
theorem list_reads_sorted (db : List USRow) (dbM : List MatRow)
    (skip limit page pageSize skipM limitM : Nat)
    (sito area search periodo sitoM areaM usM luogoM tipoM searchM : Option String)
    (nrCassaM : Option Int) :
    List.Sorted usLe (get_us_list db skip limit sito area search)
    ∧ List.Sorted usLe
        (get_us_paginated_items db page pageSize sito area periodo search)
    ∧ List.Sorted matLe
        (get_materiali dbM skipM limitM sitoM areaM usM nrCassaM luogoM tipoM
          searchM) := by
  refine ⟨?_, ?_, ?_⟩
  · exact List.Pairwise.sublist
      ((List.take_sublist _ _).trans (List.drop_sublist _ _))
      (List.sorted_insertionSort usLe _)
  · exact List.Pairwise.sublist
      ((List.take_sublist _ _).trans (List.drop_sublist _ _))
      (List.sorted_insertionSort usLe _)
  · exact List.Pairwise.sublist
      ((List.take_sublist _ _).trans (List.drop_sublist _ _))
      (List.sorted_insertionSort matLe _)

end PyArch
